import Mathlib

/-!
Verification of the SimpleHAL wrappers of the `lib_for_ch32v003` repository
(`SimpleFlash.c` / `SimpleFlash.h` and `SimpleDMA.c` / `SimpleDMA.h`).

The C code is shallowly embedded: flash memory is a byte map `Nat → Nat`,
RAM buffers are byte maps, machine integers are `Nat` with explicit
`% 2^w` where the C types truncate, and each C function becomes a pure
Lean function returning its result together with the updated state.

The vendor SDK (`ch32v00x_flash.c`, `ch32v00x_dma.c`) is not part of the
repository.  Vendor calls are therefore modelled explicitly: the flash
programming primitives take the vendor status and the post-call flash
state as oracle parameters (`Flash_WriteHalfWordGen`, `Flash_WriteWordGen`),
and the ideal instantiation (`Flash_WriteHalfWord`, `Flash_WriteWord`)
uses the documented hardware effect of a successful program operation.
-/

/- ========== Flash memory configuration (SimpleFlash.h) ========== -/

def FLASH_PAGE_SIZE : Nat := 64

def FLASH_BASE_ADDRESS : Nat := 0x08000000

def FLASH_STORAGE_PAGE_START : Nat := 254

def FLASH_STORAGE_PAGE_COUNT : Nat := 2

def FLASH_STORAGE_START_ADDR : Nat := FLASH_BASE_ADDRESS + FLASH_STORAGE_PAGE_START * FLASH_PAGE_SIZE

def FLASH_STORAGE_SIZE : Nat := FLASH_STORAGE_PAGE_COUNT * FLASH_PAGE_SIZE

def FLASH_CONFIG_PAGE : Nat := 254

def FLASH_CONFIG_ADDR : Nat := FLASH_BASE_ADDRESS + FLASH_CONFIG_PAGE * FLASH_PAGE_SIZE

def FLASH_CONFIG_SIZE : Nat := FLASH_PAGE_SIZE

def FLASH_DATA_PAGE : Nat := 255

def FLASH_DATA_ADDR : Nat := FLASH_BASE_ADDRESS + FLASH_DATA_PAGE * FLASH_PAGE_SIZE

/- ========== Status codes ========== -/

/-- The `FlashStatus` enum of `SimpleFlash.h`. -/
inductive FlashStatus where
  | FLASH_OK
  | FLASH_ERROR
  | FLASH_ERROR_BUSY
  | FLASH_ERROR_TIMEOUT
  | FLASH_ERROR_WRITE
  | FLASH_ERROR_ERASE
  | FLASH_ERROR_VERIFY
  | FLASH_ERROR_ALIGN
  | FLASH_ERROR_RANGE
  | FLASH_ERROR_CRC
  | FLASH_ERROR_INVALID
  deriving DecidableEq, Repr

/-- The vendor SDK `FLASH_Status` enum (named in `Flash_ConvertStatus`). -/
inductive FLASH_Status where
  | FLASH_BUSY
  | FLASH_ERROR_PG
  | FLASH_ERROR_WRP
  | FLASH_COMPLETE
  | FLASH_TIMEOUT
  | FLASH_OP_RANGE_ERROR
  | FLASH_ALIGN_ERROR
  | FLASH_ADR_RANGE_ERROR
  deriving DecidableEq, Repr

/-- Flash memory: the byte stored at each absolute address. -/
abbrev Flash := Nat → Nat

/-- Pointwise update of a byte map. -/
def flashStore (f : Flash) (addr v : Nat) : Flash :=
  fun a => if a = addr then v else f a

/- ========== Utility functions ========== -/

/-- `Flash_IsAddressValid`: the address lies in the 128-byte storage window. -/
def Flash_IsAddressValid (addr : Nat) : Bool :=
  decide (FLASH_STORAGE_START_ADDR ≤ addr ∧
          addr < FLASH_STORAGE_START_ADDR + FLASH_STORAGE_SIZE)

/-- `Flash_GetPageAddress`: page number to address, 0 for invalid pages. -/
def Flash_GetPageAddress (page_num : Nat) : Nat :=
  if page_num ≠ FLASH_CONFIG_PAGE ∧ page_num ≠ FLASH_DATA_PAGE then 0
  else FLASH_BASE_ADDRESS + page_num * FLASH_PAGE_SIZE

/-- `Flash_ConvertStatus`: vendor `FLASH_Status` to `FlashStatus`. -/
def Flash_ConvertStatus (status : FLASH_Status) : FlashStatus :=
  match status with
  | .FLASH_COMPLETE => .FLASH_OK
  | .FLASH_BUSY => .FLASH_ERROR_BUSY
  | .FLASH_TIMEOUT => .FLASH_ERROR_TIMEOUT
  | .FLASH_ERROR_PG => .FLASH_ERROR_WRITE
  | .FLASH_ERROR_WRP => .FLASH_ERROR_WRITE
  | .FLASH_ALIGN_ERROR => .FLASH_ERROR_ALIGN
  | .FLASH_ADR_RANGE_ERROR => .FLASH_ERROR_RANGE
  | .FLASH_OP_RANGE_ERROR => .FLASH_ERROR_RANGE

/- ========== Basic read functions ========== -/

/-- `Flash_ReadByte`: one byte, 0 for an address outside the storage window. -/
def Flash_ReadByte (f : Flash) (addr : Nat) : Nat :=
  if Flash_IsAddressValid addr then f addr % 256 else 0

/-- `Flash_ReadHalfWord`: 16-bit little-endian read, 0 if invalid or unaligned. -/
def Flash_ReadHalfWord (f : Flash) (addr : Nat) : Nat :=
  if Flash_IsAddressValid addr ∧ addr % 2 = 0 then
    f addr % 256 + 256 * (f (addr + 1) % 256)
  else 0

/-- `Flash_ReadWord`: 32-bit little-endian read, 0 if invalid or unaligned. -/
def Flash_ReadWord (f : Flash) (addr : Nat) : Nat :=
  if Flash_IsAddressValid addr ∧ addr % 4 = 0 then
    f addr % 256 + 256 * (f (addr + 1) % 256) +
      65536 * (f (addr + 2) % 256) + 16777216 * (f (addr + 3) % 256)
  else 0

/- ========== Vendor programming primitives (modelled) ========== -/

/-- Hardware effect of a successful vendor `FLASH_ProgramHalfWord`:
the two bytes of `data` are stored little-endian at `addr`. -/
def FLASH_ProgramHalfWord_effect (f : Flash) (addr data : Nat) : Flash :=
  flashStore (flashStore f addr (data % 256)) (addr + 1) (data / 256 % 256)

/-- Hardware effect of a successful vendor `FLASH_ProgramWord`:
the four bytes of `data` are stored little-endian at `addr`. -/
def FLASH_ProgramWord_effect (f : Flash) (addr data : Nat) : Flash :=
  flashStore (flashStore (flashStore (flashStore f
    addr (data % 256))
    (addr + 1) (data / 256 % 256))
    (addr + 2) (data / 65536 % 256))
    (addr + 3) (data / 16777216 % 256)

/- ========== Basic write functions ========== -/

/-- `Flash_WriteHalfWord` with the vendor call left as an oracle: `vst` is the
status returned by `FLASH_ProgramHalfWord` and `fAfter` the flash state after
that call.  Validation happens before the vendor call, exactly as in the C. -/
def Flash_WriteHalfWordGen (f : Flash) (addr data : Nat)
    (vst : FLASH_Status) (fAfter : Flash) : FlashStatus × Flash :=
  if ¬ Flash_IsAddressValid addr then (.FLASH_ERROR_RANGE, f)
  else if addr % 2 ≠ 0 then (.FLASH_ERROR_ALIGN, f)
  else if vst = .FLASH_COMPLETE ∧ Flash_ReadHalfWord fAfter addr ≠ data % 65536 then
    (.FLASH_ERROR_VERIFY, fAfter)
  else (Flash_ConvertStatus vst, fAfter)

/-- `Flash_WriteHalfWord` with the ideal vendor (programming succeeds and
stores the half-word). -/
def Flash_WriteHalfWord (f : Flash) (addr data : Nat) : FlashStatus × Flash :=
  Flash_WriteHalfWordGen f addr data .FLASH_COMPLETE
    (FLASH_ProgramHalfWord_effect f addr (data % 65536))

/-- `Flash_WriteWord` with the vendor call left as an oracle (see
`Flash_WriteHalfWordGen`). -/
def Flash_WriteWordGen (f : Flash) (addr data : Nat)
    (vst : FLASH_Status) (fAfter : Flash) : FlashStatus × Flash :=
  if ¬ Flash_IsAddressValid addr then (.FLASH_ERROR_RANGE, f)
  else if addr % 4 ≠ 0 then (.FLASH_ERROR_ALIGN, f)
  else if vst = .FLASH_COMPLETE ∧ Flash_ReadWord fAfter addr ≠ data % 4294967296 then
    (.FLASH_ERROR_VERIFY, fAfter)
  else (Flash_ConvertStatus vst, fAfter)

/-- `Flash_WriteWord` with the ideal vendor. -/
def Flash_WriteWord (f : Flash) (addr data : Nat) : FlashStatus × Flash :=
  Flash_WriteWordGen f addr data .FLASH_COMPLETE
    (FLASH_ProgramWord_effect f addr (data % 4294967296))

/-- `Flash_WriteByte`: read-modify-write of the containing half-word. -/
def Flash_WriteByte (f : Flash) (addr data : Nat) : FlashStatus × Flash :=
  if ¬ Flash_IsAddressValid addr then (.FLASH_ERROR_RANGE, f)
  else
    let aligned_addr := addr - addr % 2
    let half_word :=
      if addr % 2 = 1 then
        Flash_ReadByte f aligned_addr + 256 * (data % 256)
      else
        256 * Flash_ReadByte f (aligned_addr + 1) + data % 256
    Flash_WriteHalfWord f aligned_addr half_word

/- ========== Erase ========== -/

/-- Hardware effect of a successful vendor `FLASH_ErasePage`: the 64-byte page
at `page_addr` reads as `0xFF`. -/
def FLASH_ErasePage_effect (f : Flash) (page_addr : Nat) : Flash :=
  fun a => if page_addr ≤ a ∧ a < page_addr + FLASH_PAGE_SIZE then 255 else f a

/-- `Flash_ErasePage` with the ideal vendor (erase succeeds). -/
def Flash_ErasePage (f : Flash) (page_num : Nat) : FlashStatus × Flash :=
  if page_num ≠ FLASH_CONFIG_PAGE ∧ page_num ≠ FLASH_DATA_PAGE then
    (.FLASH_ERROR_RANGE, f)
  else
    let page_addr := Flash_GetPageAddress page_num
    if page_addr = 0 then (.FLASH_ERROR_RANGE, f)
    else (Flash_ConvertStatus .FLASH_COMPLETE, FLASH_ErasePage_effect f page_addr)

/- ========== CRC16 ========== -/

/-- One shift step of `Flash_CalculateCRC16`'s inner loop. -/
def crc16Shift (c : Nat) : Nat :=
  if c % 65536 ≥ 32768 then ((c * 2) ^^^ 4129) % 65536 else c * 2 % 65536

/-- `n` iterations of the inner loop. -/
def crc16Shifts : Nat → Nat → Nat
  | 0, c => c
  | n + 1, c => crc16Shifts n (crc16Shift c)

/-- Processing one data byte: xor into the high byte, then 8 shift steps. -/
def crc16Byte (c b : Nat) : Nat :=
  crc16Shifts 8 (c ^^^ (b % 256 * 256))

/-- `Flash_CalculateCRC16`: CRC16-CCITT, initial value `0xFFFF`,
polynomial `0x1021`. -/
def Flash_CalculateCRC16 (data : List Nat) : Nat :=
  data.foldl crc16Byte 65535

/- ========== String functions ========== -/

/-- The `for` loop of `Flash_ReadString`: `m` is `max_len`, `i` the loop
index, `rem` the remaining iterations (`max_len - 1 - i`).  The result is the
returned length together with the list of `(index, byte)` buffer writes, in
order.  When the loop runs to the end, `buffer[max_len - 1] = 0` is written. -/
def readStringLoop (f : Flash) (addr m : Nat) : Nat → Nat → Nat × List (Nat × Nat)
  | i, 0 => (i, [(m - 1, 0)])
  | i, rem + 1 =>
    let c := Flash_ReadByte f (addr + i)
    if c = 0 then (i, [(i, 0)])
    else
      let r := readStringLoop f addr m (i + 1) rem
      (r.1, (i, c) :: r.2)

/-- `Flash_ReadString`: the returned length and the buffer writes performed.
`bufNull` models `buffer == NULL`. -/
def Flash_ReadString (f : Flash) (addr : Nat) (bufNull : Bool) (max_len : Nat) :
    Nat × List (Nat × Nat) :=
  if ¬ Flash_IsAddressValid addr ∨ bufNull = true ∨ max_len = 0 then (0, [])
  else readStringLoop f addr max_len 0 (max_len - 1)

/- ========== Struct/buffer functions ========== -/

/-- The write loop of `Flash_WriteStruct`: writes `src i`, `src (i+1)`, ...
(`k` bytes in all) at consecutive addresses starting at `addr + i`,
stopping at the first byte write that does not return `FLASH_OK`. -/
def writeLoop (addr : Nat) (src : Nat → Nat) : Nat → Nat → Flash → FlashStatus × Flash
  | _, 0, f => (.FLASH_OK, f)
  | i, k + 1, f =>
    let r := Flash_WriteByte f (addr + i) (src i)
    if r.1 = .FLASH_OK then writeLoop addr src (i + 1) k r.2 else r

/-- The bytes `Flash_ReadStruct` places in the destination buffer. -/
def readBytes (f : Flash) (addr size : Nat) : List Nat :=
  (List.range size).map (fun i => Flash_ReadByte f (addr + i))

/-- `Flash_ReadStruct`: status together with the bytes written to the
destination buffer.  `ptrNull` models `ptr == NULL`. -/
def Flash_ReadStruct (f : Flash) (addr : Nat) (ptrNull : Bool) (size : Nat) :
    FlashStatus × List Nat :=
  if ¬ Flash_IsAddressValid addr ∨ ptrNull = true ∨ size = 0 then
    (.FLASH_ERROR_INVALID, [])
  else if size > FLASH_PAGE_SIZE then (.FLASH_ERROR_RANGE, [])
  else (.FLASH_OK, readBytes f addr size)

/-- `Flash_WriteStruct`: the source buffer is `none` for a NULL pointer and
otherwise a byte map. -/
def Flash_WriteStruct (f : Flash) (addr : Nat) (ptr : Option (Nat → Nat))
    (size : Nat) : FlashStatus × Flash :=
  match ptr with
  | none => (.FLASH_ERROR_INVALID, f)
  | some src =>
    if ¬ Flash_IsAddressValid addr ∨ size = 0 then (.FLASH_ERROR_INVALID, f)
    else if size > FLASH_PAGE_SIZE then (.FLASH_ERROR_RANGE, f)
    else writeLoop addr src 0 size f

/- ========== Configuration management ========== -/

/-- The first `size` bytes of a RAM buffer, as a list. -/
def bufBytes (p : Nat → Nat) (size : Nat) : List Nat :=
  (List.range size).map p

/-- `Flash_SaveConfig`: CRC over the buffer, erase the config page, write the
data bytes, then write the CRC half-word right after them. -/
def Flash_SaveConfig (f : Flash) (ptr : Option (Nat → Nat)) (size : Nat) :
    FlashStatus × Flash :=
  match ptr with
  | none => (.FLASH_ERROR_INVALID, f)
  | some p =>
    if size = 0 ∨ size > FLASH_CONFIG_SIZE - 2 then (.FLASH_ERROR_INVALID, f)
    else
      let crc := Flash_CalculateCRC16 (bufBytes p size)
      let r1 := Flash_ErasePage f FLASH_CONFIG_PAGE
      if r1.1 ≠ .FLASH_OK then r1
      else
        let r2 := Flash_WriteStruct r1.2 FLASH_CONFIG_ADDR (some p) size
        if r2.1 ≠ .FLASH_OK then r2
        else Flash_WriteHalfWord r2.2 (FLASH_CONFIG_ADDR + size) crc

/-- `Flash_LoadConfig`: returns the `bool` result together with the bytes
written to the destination buffer.  `ptrNull` models `ptr == NULL`. -/
def Flash_LoadConfig (f : Flash) (ptrNull : Bool) (size : Nat) :
    Bool × List Nat :=
  if ptrNull = true ∨ size = 0 ∨ size > FLASH_CONFIG_SIZE - 2 then (false, [])
  else
    let r := Flash_ReadStruct f FLASH_CONFIG_ADDR ptrNull size
    if r.1 ≠ .FLASH_OK then (false, r.2)
    else
      let stored_crc := Flash_ReadHalfWord f (FLASH_CONFIG_ADDR + size)
      let calculated_crc := Flash_CalculateCRC16 r.2
      (decide (stored_crc = calculated_crc), r.2)

/- ========== Advanced functions (auto-erase) ========== -/

/-- `Flash_WriteByteWithErase`: read the whole page, modify one byte, erase
the page, write the buffer back. -/
def Flash_WriteByteWithErase (f : Flash) (addr data : Nat) : FlashStatus × Flash :=
  if ¬ Flash_IsAddressValid addr then (.FLASH_ERROR_RANGE, f)
  else
    let page_addr := addr - addr % FLASH_PAGE_SIZE
    let page_num := (addr - FLASH_BASE_ADDRESS) / FLASH_PAGE_SIZE
    let page_buffer : Nat → Nat := fun i => Flash_ReadByte f (page_addr + i)
    let offset := addr - page_addr
    let buffer2 : Nat → Nat := fun i => if i = offset then data % 256 else page_buffer i
    let r1 := Flash_ErasePage f page_num
    if r1.1 ≠ .FLASH_OK then r1
    else writeLoop page_addr buffer2 0 FLASH_PAGE_SIZE r1.2

/-- `Flash_WriteHalfWordWithErase`: two byte writes with auto-erase. -/
def Flash_WriteHalfWordWithErase (f : Flash) (addr data : Nat) : FlashStatus × Flash :=
  if ¬ Flash_IsAddressValid addr ∨ addr % 2 = 1 then (.FLASH_ERROR_ALIGN, f)
  else
    let r1 := Flash_WriteByteWithErase f addr (data % 256)
    if r1.1 ≠ .FLASH_OK then r1
    else Flash_WriteByteWithErase r1.2 (addr + 1) (data / 256 % 256)

/-- `Flash_WriteWordWithErase`: two half-word writes with auto-erase. -/
def Flash_WriteWordWithErase (f : Flash) (addr data : Nat) : FlashStatus × Flash :=
  if ¬ Flash_IsAddressValid addr ∨ addr % 4 ≠ 0 then (.FLASH_ERROR_ALIGN, f)
  else
    let r1 := Flash_WriteHalfWordWithErase f addr (data % 65536)
    if r1.1 ≠ .FLASH_OK then r1
    else Flash_WriteHalfWordWithErase r1.2 (addr + 2) (data / 65536 % 65536)

/- ========== SimpleDMA: enumerations (SimpleDMA.h) ========== -/

/-- The `DMA_Status` enum. -/
inductive DMA_Status where
  | DMA_STATUS_IDLE
  | DMA_STATUS_BUSY
  | DMA_STATUS_COMPLETE
  | DMA_STATUS_ERROR
  deriving DecidableEq, Repr

/-- The `DMA_Direction` enum. -/
inductive DMA_Direction where
  | DMA_DIR_PERIPH_TO_MEM
  | DMA_DIR_MEM_TO_PERIPH
  | DMA_DIR_MEM_TO_MEM
  deriving DecidableEq, Repr

/-- The `DMA_Priority` enum. -/
inductive DMA_Priority where
  | DMA_PRIORITY_LOW
  | DMA_PRIORITY_MEDIUM
  | DMA_PRIORITY_HIGH
  | DMA_PRIORITY_VERY_HIGH
  deriving DecidableEq, Repr

/-- The `DMA_DataSize` enum. -/
inductive DMA_DataSize where
  | DMA_SIZE_BYTE
  | DMA_SIZE_HALFWORD
  | DMA_SIZE_WORD
  deriving DecidableEq, Repr

/-- The `DMA_Mode` enum. -/
inductive DMA_Mode where
  | DMA_MODE_NORMAL
  | DMA_MODE_CIRCULAR
  deriving DecidableEq, Repr

/-- The vendor direction constants `DMA_DIR_PeripheralSRC` /
`DMA_DIR_PeripheralDST` used in `DMA_InitTypeDef`. -/
inductive VendorDir where
  | PeripheralSRC
  | PeripheralDST
  deriving DecidableEq, Repr

/-- The `DMA_Config_t` structure. -/
structure DMA_Config_t where
  channel : Nat
  direction : DMA_Direction
  priority : DMA_Priority
  data_size : DMA_DataSize
  mode : DMA_Mode
  mem_increment : Nat
  periph_increment : Nat
  periph_addr : Nat
  mem_addr : Nat
  buffer_size : Nat
  deriving DecidableEq, Repr

/-- The vendor `DMA_InitTypeDef` register configuration, as filled in by
`DMA_SimpleInit` (data sizes encoded 0 = byte, 1 = half-word, 2 = word;
priority 0..3). -/
structure DMA_InitTypeDef where
  PeripheralBaseAddr : Nat
  MemoryBaseAddr : Nat
  DIR : VendorDir
  M2M : Bool
  BufferSize : Nat
  PeripheralInc : Bool
  MemoryInc : Bool
  PeripheralDataSize : Nat
  MemoryDataSize : Nat
  Circular : Bool
  PriorityLevel : Nat
  deriving DecidableEq, Repr

/- ========== SimpleDMA: module state ========== -/

/-- The SimpleDMA module state: the `channel_status` array, the per-channel
hardware transfer-complete (`TC`) and transfer-error (`TE`) flags (which also
serve as the interrupt pending bits), whether a transfer-complete or error
callback is registered (`callbacks[i] != NULL`), the channel enable bit, and
the vendor register configuration written by `DMA_Init`.  All maps are
indexed by `channel - 1`. -/
structure DMAState where
  status : Nat → DMA_Status
  tc : Nat → Bool
  te : Nat → Bool
  tcCb : Nat → Bool
  errCb : Nat → Bool
  enabled : Nat → Bool
  initReg : Nat → Option DMA_InitTypeDef

/-- Pointwise update of an index-keyed map. -/
def upd {α : Type} (g : Nat → α) (i : Nat) (v : α) : Nat → α :=
  fun j => if j = i then v else g j

/- ========== SimpleDMA: public functions (SimpleDMA.c) ========== -/

/-- The `DMA_InitTypeDef` built by `DMA_SimpleInit` from a `DMA_Config_t`. -/
def buildInitTypeDef (config : DMA_Config_t) : DMA_InitTypeDef :=
  { PeripheralBaseAddr := config.periph_addr
    MemoryBaseAddr := config.mem_addr
    DIR :=
      if config.direction = .DMA_DIR_MEM_TO_MEM then .PeripheralSRC
      else if config.direction = .DMA_DIR_MEM_TO_PERIPH then .PeripheralDST
      else .PeripheralSRC
    M2M := decide (config.direction = .DMA_DIR_MEM_TO_MEM)
    BufferSize := config.buffer_size
    PeripheralInc := decide (config.periph_increment ≠ 0)
    MemoryInc := decide (config.mem_increment ≠ 0)
    PeripheralDataSize :=
      match config.data_size with
      | .DMA_SIZE_BYTE => 0
      | .DMA_SIZE_HALFWORD => 1
      | .DMA_SIZE_WORD => 2
    MemoryDataSize :=
      match config.data_size with
      | .DMA_SIZE_BYTE => 0
      | .DMA_SIZE_HALFWORD => 1
      | .DMA_SIZE_WORD => 2
    Circular := decide (config.mode = .DMA_MODE_CIRCULAR)
    PriorityLevel :=
      match config.priority with
      | .DMA_PRIORITY_LOW => 0
      | .DMA_PRIORITY_MEDIUM => 1
      | .DMA_PRIORITY_HIGH => 2
      | .DMA_PRIORITY_VERY_HIGH => 3 }

/-- `DMA_Reset`: disable the channel, clear all its flags (the global flag
clear clears TC and TE), record status `IDLE`. -/
def DMA_Reset (s : DMAState) (channel : Nat) : DMAState :=
  { s with
    enabled := upd s.enabled (channel - 1) false
    tc := upd s.tc (channel - 1) false
    te := upd s.te (channel - 1) false
    status := upd s.status (channel - 1) .DMA_STATUS_IDLE }

/-- `DMA_SimpleInit`: reset the channel, apply the register configuration,
record status `IDLE`. -/
def DMA_SimpleInit (s : DMAState) (config : DMA_Config_t) : DMAState :=
  let s1 := DMA_Reset s config.channel
  let s2 := { s1 with
    initReg := upd s1.initReg (config.channel - 1) (some (buildInitTypeDef config)) }
  { s2 with status := upd s2.status (config.channel - 1) .DMA_STATUS_IDLE }

/-- `DMA_Start`: clear the TC and TE flags, record status `BUSY`, enable the
channel. -/
def DMA_Start (s : DMAState) (channel : Nat) : DMAState :=
  { s with
    tc := upd s.tc (channel - 1) false
    te := upd s.te (channel - 1) false
    status := upd s.status (channel - 1) .DMA_STATUS_BUSY
    enabled := upd s.enabled (channel - 1) true }

/-- `DMA_Stop`: disable the channel, record status `IDLE`. -/
def DMA_Stop (s : DMAState) (channel : Nat) : DMAState :=
  { s with
    enabled := upd s.enabled (channel - 1) false
    status := upd s.status (channel - 1) .DMA_STATUS_IDLE }

/-- `DMA_GetStatus`: if the TC flag is set record `COMPLETE`, then if the TE
flag is set record `ERROR` (so TE wins when both are set), and return the
recorded status. -/
def DMA_GetStatus (s : DMAState) (channel : Nat) : DMA_Status × DMAState :=
  let s1 :=
    if s.tc (channel - 1) then
      { s with status := upd s.status (channel - 1) .DMA_STATUS_COMPLETE }
    else s
  let s2 :=
    if s1.te (channel - 1) then
      { s1 with status := upd s1.status (channel - 1) .DMA_STATUS_ERROR }
    else s1
  (s2.status (channel - 1), s2)

/-- Callback invocations observed during an interrupt handler run. -/
inductive DMA_CBEvent where
  | tcCall (channel : Nat)
  | errCall (channel : Nat)
  deriving DecidableEq, Repr

/-- The body shared by `DMA1_Channel1_IRQHandler` ... `DMA1_Channel7_IRQHandler`
(each handler is this definition with its channel number `n` fixed): if the TC
interrupt is pending, clear it, record `COMPLETE` and call the registered
transfer-complete callback (if any); then, if the TE interrupt is pending,
clear it, record `ERROR` and call the registered error callback (if any).
The result is the new state and the callback invocations, in order. -/
def DMA1_ChannelIRQHandler (s : DMAState) (n : Nat) : DMAState × List DMA_CBEvent :=
  let i := n - 1
  let r1 :=
    if s.tc i then
      (({ s with tc := upd s.tc i false,
                 status := upd s.status i .DMA_STATUS_COMPLETE } : DMAState),
       if s.tcCb i then [DMA_CBEvent.tcCall n] else [])
    else (s, [])
  let s1 := r1.1
  let r2 :=
    if s1.te i then
      (({ s1 with te := upd s1.te i false,
                  status := upd s1.status i .DMA_STATUS_ERROR } : DMAState),
       if s1.errCb i then [DMA_CBEvent.errCall n] else [])
    else (s1, [])
  (r2.1, r1.2 ++ r2.2)

/-- The hardware flags seen by the polled channel at iteration `k` of a wait
loop: `(TC, TE)`.  The flags are hardware-owned and may change between polls. -/
abbrev FlagEnv := Nat → Bool × Bool

/-- The state observed at poll `k`: the software state `s` with the polled
channel's hardware flags supplied by the environment. -/
def waitState (s : DMAState) (channel : Nat) (env : FlagEnv) (k : Nat) : DMAState :=
  { s with
    tc := upd s.tc (channel - 1) (env k).1
    te := upd s.te (channel - 1) (env k).2 }

/-- `DMA_WaitComplete`: poll `DMA_GetStatus` forever, returning `1` on
`COMPLETE` and `0` on `ERROR`.  `timeout_ms` is accepted but never used (the
timeout check is an empty placeholder in the C).  `fuel` bounds the number of
polls we unroll; `none` means the loop was still running after `fuel` polls. -/
def DMA_WaitComplete (s : DMAState) (channel : Nat) (env : FlagEnv)
    (timeout_ms : Nat) : Nat → Nat → Option Nat
  | _, 0 => none
  | k, fuel + 1 =>
    let r := DMA_GetStatus (waitState s channel env k) channel
    if r.1 = .DMA_STATUS_COMPLETE then some 1
    else if r.1 = .DMA_STATUS_ERROR then some 0
    else DMA_WaitComplete s channel env timeout_ms (k + 1) fuel

/-- The status `DMA_GetStatus` reports at poll `k` of a wait loop. -/
def pollStatus (s : DMAState) (channel : Nat) (env : FlagEnv) (k : Nat) : DMA_Status :=
  (DMA_GetStatus (waitState s channel env k) channel).1

/- ========== SimpleDMA: memory transfer ========== -/

/-- The `DMA_Config_t` literal built inside `DMA_MemCopy`. -/
def DMA_MemCopy_config (dst src size : Nat) : DMA_Config_t :=
  { channel := 1
    direction := .DMA_DIR_MEM_TO_MEM
    priority := .DMA_PRIORITY_HIGH
    data_size := .DMA_SIZE_BYTE
    mode := .DMA_MODE_NORMAL
    mem_increment := 1
    periph_increment := 1
    periph_addr := src
    mem_addr := dst
    buffer_size := size }

/-- Modelled from the spec: the DMA engine itself is vendor hardware, not
code of this repository.  Per the spec's description ("DMA: Direct Memory
Access — peripheral that transfers data between memory/peripherals without
CPU involvement per byte"), a started normal-mode memory-to-memory byte
transfer with both address increments copies `BufferSize` bytes from the
source (peripheral) address to the destination (memory) address; other
configurations are left unmodelled and leave memory unchanged. -/
def DMA_HW_Transfer (init : DMA_InitTypeDef) (mem : Nat → Nat) : Nat → Nat :=
  if init.M2M = true ∧ init.DIR = .PeripheralSRC ∧ init.MemoryInc = true ∧
     init.PeripheralInc = true ∧ init.MemoryDataSize = 0 ∧ init.Circular = false then
    fun a =>
      if init.MemoryBaseAddr ≤ a ∧ a < init.MemoryBaseAddr + init.BufferSize then
        mem (init.PeripheralBaseAddr + (a - init.MemoryBaseAddr)) % 256
      else mem a
  else mem

/-- `DMA_MemCopy`: build the channel-1 memory-to-memory byte configuration,
initialise, start, and block in `DMA_WaitComplete`.  The hardware performs the
configured transfer on `mem`; `env` supplies the hardware flags seen while
waiting.  Result: state after `DMA_Start`, memory after the transfer, and the
`DMA_WaitComplete` result. -/
def DMA_MemCopy (s : DMAState) (mem : Nat → Nat) (dst src size : Nat)
    (env : FlagEnv) (fuel : Nat) : DMAState × (Nat → Nat) × Option Nat :=
  let config := DMA_MemCopy_config dst src size
  let s1 := DMA_SimpleInit s config
  let s2 := DMA_Start s1 1
  let mem2 := DMA_HW_Transfer (buildInitTypeDef config) mem
  let r := DMA_WaitComplete s2 1 env 0 0 fuel
  (s2, mem2, r)

/- ========== Helper lemmas ========== -/

theorem isAddressValid_iff (addr : Nat) :
    Flash_IsAddressValid addr = true ↔ 134233984 ≤ addr ∧ addr < 134234112 := by
  simp only [Flash_IsAddressValid, FLASH_STORAGE_START_ADDR, FLASH_BASE_ADDRESS,
    FLASH_STORAGE_PAGE_START, FLASH_PAGE_SIZE, FLASH_STORAGE_SIZE,
    FLASH_STORAGE_PAGE_COUNT, decide_eq_true_eq]

theorem config_addr_eq : FLASH_CONFIG_ADDR = 134233984 := by
  simp [FLASH_CONFIG_ADDR, FLASH_BASE_ADDRESS, FLASH_CONFIG_PAGE, FLASH_PAGE_SIZE]

theorem valid_config_offset (j : Nat) (h : j < 128) :
    Flash_IsAddressValid (FLASH_CONFIG_ADDR + j) = true := by
  rw [isAddressValid_iff, config_addr_eq]
  omega

/- ========== C8: storage-window guard ========== -/

/-- Concrete flash used by witnesses: every byte reads as zero. -/
def fW0 : Flash := fun _ => 0

/-- C8: for every address outside the 128-byte storage window
`[FLASH_STORAGE_START_ADDR, FLASH_STORAGE_START_ADDR + 128)`, the read
functions return 0, and every write function returns a status different from
`FLASH_OK` and leaves every flash cell unchanged. -/
theorem C8_storage_window_guard (f : Flash) (addr data : Nat)
    (h : Flash_IsAddressValid addr = false) :
    Flash_ReadByte f addr = 0 ∧
    Flash_ReadHalfWord f addr = 0 ∧
    Flash_ReadWord f addr = 0 ∧
    ((Flash_WriteByte f addr data).1 ≠ .FLASH_OK ∧
      ∀ a, (Flash_WriteByte f addr data).2 a = f a) ∧
    ((Flash_WriteHalfWord f addr data).1 ≠ .FLASH_OK ∧
      ∀ a, (Flash_WriteHalfWord f addr data).2 a = f a) ∧
    ((Flash_WriteWord f addr data).1 ≠ .FLASH_OK ∧
      ∀ a, (Flash_WriteWord f addr data).2 a = f a) ∧
    ((Flash_WriteByteWithErase f addr data).1 ≠ .FLASH_OK ∧
      ∀ a, (Flash_WriteByteWithErase f addr data).2 a = f a) ∧
    ((Flash_WriteHalfWordWithErase f addr data).1 ≠ .FLASH_OK ∧
      ∀ a, (Flash_WriteHalfWordWithErase f addr data).2 a = f a) ∧
    ((Flash_WriteWordWithErase f addr data).1 ≠ .FLASH_OK ∧
      ∀ a, (Flash_WriteWordWithErase f addr data).2 a = f a) := by
  refine ⟨?_, ?_, ?_, ⟨?_, ?_⟩, ⟨?_, ?_⟩, ⟨?_, ?_⟩, ⟨?_, ?_⟩, ⟨?_, ?_⟩, ⟨?_, ?_⟩⟩ <;>
    simp [Flash_ReadByte, Flash_ReadHalfWord, Flash_ReadWord, Flash_WriteByte,
      Flash_WriteHalfWord, Flash_WriteHalfWordGen, Flash_WriteWord,
      Flash_WriteWordGen, Flash_WriteByteWithErase, Flash_WriteHalfWordWithErase,
      Flash_WriteWordWithErase, h]

/-- Witness for C8 at the concrete out-of-window address 0. -/
theorem C8_witness :
    Flash_IsAddressValid 0 = false ∧
    Flash_ReadByte fW0 0 = 0 ∧
    (Flash_WriteWord fW0 0 5).1 ≠ .FLASH_OK ∧
    (Flash_WriteWord fW0 0 5).2 3 = fW0 3 := by
  have h := C8_storage_window_guard fW0 0 5 (by decide)
  exact ⟨by decide, h.1, h.2.2.2.2.2.1.1, h.2.2.2.2.2.1.2 3⟩

/- ========== C6: return-code propagation ========== -/

/-- C6: for a valid aligned address, `Flash_WriteWord` (with the vendor call
as an oracle) returns `FLASH_OK` iff the vendor returned `FLASH_COMPLETE` and
the readback equals `data`; it returns `FLASH_ERROR_VERIFY` when programming
completed but the readback differs; otherwise it returns exactly what
`Flash_ConvertStatus` assigns to the vendor status, and that assignment is the
listed mapping. -/
theorem C6_status_propagation (f fAfter : Flash) (addr data : Nat)
    (vst : FLASH_Status) (hv : Flash_IsAddressValid addr = true)
    (ha : addr % 4 = 0) (hd : data < 4294967296) :
    ((Flash_WriteWordGen f addr data vst fAfter).1 = .FLASH_OK ↔
      vst = .FLASH_COMPLETE ∧ Flash_ReadWord fAfter addr = data) ∧
    (vst = .FLASH_COMPLETE → Flash_ReadWord fAfter addr ≠ data →
      (Flash_WriteWordGen f addr data vst fAfter).1 = .FLASH_ERROR_VERIFY) ∧
    (vst ≠ .FLASH_COMPLETE →
      (Flash_WriteWordGen f addr data vst fAfter).1 = Flash_ConvertStatus vst) ∧
    Flash_ConvertStatus .FLASH_COMPLETE = .FLASH_OK ∧
    Flash_ConvertStatus .FLASH_BUSY = .FLASH_ERROR_BUSY ∧
    Flash_ConvertStatus .FLASH_TIMEOUT = .FLASH_ERROR_TIMEOUT ∧
    Flash_ConvertStatus .FLASH_ERROR_PG = .FLASH_ERROR_WRITE ∧
    Flash_ConvertStatus .FLASH_ERROR_WRP = .FLASH_ERROR_WRITE ∧
    Flash_ConvertStatus .FLASH_ALIGN_ERROR = .FLASH_ERROR_ALIGN ∧
    Flash_ConvertStatus .FLASH_ADR_RANGE_ERROR = .FLASH_ERROR_RANGE ∧
    Flash_ConvertStatus .FLASH_OP_RANGE_ERROR = .FLASH_ERROR_RANGE := by
  unfold Flash_WriteWordGen
  simp only [Nat.mod_eq_of_lt hd, hv, ha]
  by_cases hr : Flash_ReadWord fAfter addr = data <;>
    cases vst <;>
      simp_all [Flash_ConvertStatus]

/-- Witness for C6 at a concrete valid aligned address with a busy vendor. -/
theorem C6_witness :
    Flash_IsAddressValid FLASH_CONFIG_ADDR = true ∧
    FLASH_CONFIG_ADDR % 4 = 0 ∧
    (Flash_WriteWordGen fW0 FLASH_CONFIG_ADDR 5 .FLASH_BUSY fW0).1 =
      Flash_ConvertStatus .FLASH_BUSY := by
  have h := C6_status_propagation fW0 fW0 FLASH_CONFIG_ADDR 5 .FLASH_BUSY
    (by decide) (by decide) (by decide)
  exact ⟨by decide, by decide, h.2.2.1 (by decide)⟩

/- ========== C4: DMA status tracking ========== -/

/-- C4: `DMA_GetStatus` returns `COMPLETE` when the transfer-complete flag is
set (and the error flag is not), `ERROR` when the error flag is set (error
taking precedence when both are set, since it is checked last), and otherwise
the last recorded status; `DMA_Start` records `BUSY` after clearing both
flags, `DMA_Stop` and `DMA_Reset` record `IDLE`; the recorded status always
lies in {IDLE, BUSY, COMPLETE, ERROR}. -/
theorem C4_status_tracking (s : DMAState) (channel : Nat)
    (h1 : 1 ≤ channel) (h7 : channel ≤ 7) :
    (s.tc (channel - 1) = true → s.te (channel - 1) = false →
      (DMA_GetStatus s channel).1 = .DMA_STATUS_COMPLETE) ∧
    (s.te (channel - 1) = true →
      (DMA_GetStatus s channel).1 = .DMA_STATUS_ERROR) ∧
    (s.tc (channel - 1) = false → s.te (channel - 1) = false →
      (DMA_GetStatus s channel).1 = s.status (channel - 1)) ∧
    (DMA_Start s channel).status (channel - 1) = .DMA_STATUS_BUSY ∧
    (DMA_Start s channel).tc (channel - 1) = false ∧
    (DMA_Start s channel).te (channel - 1) = false ∧
    (DMA_Stop s channel).status (channel - 1) = .DMA_STATUS_IDLE ∧
    (DMA_Reset s channel).status (channel - 1) = .DMA_STATUS_IDLE ∧
    (∀ st : DMA_Status, st = .DMA_STATUS_IDLE ∨ st = .DMA_STATUS_BUSY ∨
      st = .DMA_STATUS_COMPLETE ∨ st = .DMA_STATUS_ERROR) := by
  refine ⟨?_, ?_, ?_, ?_, ?_, ?_, ?_, ?_, ?_⟩
  · intro htc hte
    simp [DMA_GetStatus, htc, hte, upd]
  · intro hte
    by_cases htc : s.tc (channel - 1) <;> simp [DMA_GetStatus, htc, hte, upd]
  · intro htc hte
    simp [DMA_GetStatus, htc, hte, upd]
  · simp [DMA_Start, upd]
  · simp [DMA_Start, upd]
  · simp [DMA_Start, upd]
  · simp [DMA_Stop, upd]
  · simp [DMA_Reset, upd]
  · intro st
    cases st <;> simp

/-- Concrete DMA state used by witnesses: channel 1's transfer-complete flag
set, a transfer-complete callback registered, everything else clear. -/
def sW1 : DMAState :=
  { status := fun _ => .DMA_STATUS_BUSY
    tc := fun i => i = 0
    te := fun _ => false
    tcCb := fun i => i = 0
    errCb := fun _ => false
    enabled := fun _ => false
    initReg := fun _ => none }

/-- Witness for C4 on channel 1 of the concrete state `sW1`. -/
theorem C4_witness :
    (1 : Nat) ≤ 1 ∧ (1 : Nat) ≤ 7 ∧
    (DMA_GetStatus sW1 1).1 = .DMA_STATUS_COMPLETE ∧
    (DMA_Start sW1 1).status 0 = .DMA_STATUS_BUSY ∧
    (DMA_Stop sW1 1).status 0 = .DMA_STATUS_IDLE := by
  have h := C4_status_tracking sW1 1 (by decide) (by decide)
  exact ⟨by decide, by decide, h.1 (by decide) (by decide), h.2.2.2.1, h.2.2.2.2.2.2.1⟩

/- ========== C5: interrupt handler ========== -/

/-- C5: one run of the channel-`n` interrupt handler with the
transfer-complete interrupt pending clears that flag and invokes the
registered transfer-complete callback exactly once (not at all when none is
registered), recording `COMPLETE` when no error is pending; with the
transfer-error interrupt pending it clears that flag, records `ERROR`, and
invokes the registered error callback at most once; it performs no other
coordination (no other channel or field is touched, and only the two
callbacks can be invoked). -/
theorem C5_irq_handler (s : DMAState) (n : Nat) (h1 : 1 ≤ n) (h7 : n ≤ 7) :
    (s.tc (n - 1) = true →
      (DMA1_ChannelIRQHandler s n).1.tc (n - 1) = false ∧
      (DMA1_ChannelIRQHandler s n).2.count (DMA_CBEvent.tcCall n) =
        (if s.tcCb (n - 1) then 1 else 0)) ∧
    (s.tc (n - 1) = true → s.te (n - 1) = false →
      (DMA1_ChannelIRQHandler s n).1.status (n - 1) = .DMA_STATUS_COMPLETE) ∧
    (s.te (n - 1) = true →
      (DMA1_ChannelIRQHandler s n).1.te (n - 1) = false ∧
      (DMA1_ChannelIRQHandler s n).1.status (n - 1) = .DMA_STATUS_ERROR ∧
      (DMA1_ChannelIRQHandler s n).2.count (DMA_CBEvent.errCall n) =
        (if s.errCb (n - 1) then 1 else 0)) ∧
    (s.tc (n - 1) = false →
      (DMA1_ChannelIRQHandler s n).2.count (DMA_CBEvent.tcCall n) = 0 ∧
      (DMA1_ChannelIRQHandler s n).1.tc (n - 1) = s.tc (n - 1)) ∧
    (s.te (n - 1) = false →
      (DMA1_ChannelIRQHandler s n).2.count (DMA_CBEvent.errCall n) = 0) ∧
    (s.tc (n - 1) = false → s.te (n - 1) = false →
      (DMA1_ChannelIRQHandler s n).1.status (n - 1) = s.status (n - 1)) ∧
    ((DMA1_ChannelIRQHandler s n).1.tcCb = s.tcCb ∧
      (DMA1_ChannelIRQHandler s n).1.errCb = s.errCb ∧
      (DMA1_ChannelIRQHandler s n).1.enabled = s.enabled ∧
      (DMA1_ChannelIRQHandler s n).1.initReg = s.initReg) ∧
    (∀ j, j ≠ n - 1 →
      (DMA1_ChannelIRQHandler s n).1.status j = s.status j ∧
      (DMA1_ChannelIRQHandler s n).1.tc j = s.tc j ∧
      (DMA1_ChannelIRQHandler s n).1.te j = s.te j) ∧
    (∀ e ∈ (DMA1_ChannelIRQHandler s n).2,
      e = DMA_CBEvent.tcCall n ∨ e = DMA_CBEvent.errCall n) := by
  by_cases htc : s.tc (n - 1) <;> by_cases hte : s.te (n - 1) <;>
    by_cases hcb : s.tcCb (n - 1) <;> by_cases heb : s.errCb (n - 1) <;>
      simp_all [DMA1_ChannelIRQHandler, upd]

/-- Witness for C5 on channel 1 of the concrete state `sW1`. -/
theorem C5_witness :
    (1 : Nat) ≤ 1 ∧ (1 : Nat) ≤ 7 ∧
    (DMA1_ChannelIRQHandler sW1 1).1.tc 0 = false ∧
    (DMA1_ChannelIRQHandler sW1 1).2.count (DMA_CBEvent.tcCall 1) = 1 ∧
    (DMA1_ChannelIRQHandler sW1 1).1.status 0 = .DMA_STATUS_COMPLETE := by
  have h := C5_irq_handler sW1 1 (by decide) (by decide)
  refine ⟨by decide, by decide, (h.1 (by decide)).1, ?_, h.2.1 (by decide) (by decide)⟩
  have hc := (h.1 (by decide)).2
  simpa using hc

/- ========== C9: DMA_WaitComplete ========== -/

theorem waitComplete_timeout_irrel (s : DMAState) (ch : Nat) (env : FlagEnv)
    (t t' : Nat) :
    ∀ fuel k, DMA_WaitComplete s ch env t k fuel = DMA_WaitComplete s ch env t' k fuel := by
  intro fuel
  induction fuel with
  | zero => intro k; rfl
  | succ m ih =>
    intro k
    simp only [DMA_WaitComplete]
    rw [ih]

theorem waitComplete_some (s : DMAState) (ch : Nat) (env : FlagEnv) (t : Nat) :
    ∀ fuel k v, DMA_WaitComplete s ch env t k fuel = some v →
      (v = 1 ∧ ∃ j, pollStatus s ch env j = .DMA_STATUS_COMPLETE) ∨
      (v = 0 ∧ ∃ j, pollStatus s ch env j = .DMA_STATUS_ERROR) := by
  intro fuel
  induction fuel with
  | zero => intro k v h; simp [DMA_WaitComplete] at h
  | succ m ih =>
    intro k v h
    simp only [DMA_WaitComplete] at h
    by_cases hc : (DMA_GetStatus (waitState s ch env k) ch).1 = .DMA_STATUS_COMPLETE
    · refine Or.inl ⟨?_, ⟨k, hc⟩⟩
      simp [hc] at h
      omega
    · by_cases he : (DMA_GetStatus (waitState s ch env k) ch).1 = .DMA_STATUS_ERROR
      · refine Or.inr ⟨?_, ⟨k, he⟩⟩
        simp [hc, he] at h
        omega
      · simp [hc, he] at h
        exact ih (k + 1) v h

theorem waitComplete_none (s : DMAState) (ch : Nat) (env : FlagEnv) (t : Nat)
    (h : ∀ j, pollStatus s ch env j ≠ .DMA_STATUS_COMPLETE ∧
              pollStatus s ch env j ≠ .DMA_STATUS_ERROR) :
    ∀ fuel k, DMA_WaitComplete s ch env t k fuel = none := by
  intro fuel
  induction fuel with
  | zero => intro k; rfl
  | succ m ih =>
    intro k
    have hk := h k
    simp only [pollStatus] at hk
    simp only [DMA_WaitComplete]
    simp [hk.1, hk.2, ih]

theorem waitComplete_first (s : DMAState) (ch : Nat) (env : FlagEnv) (t : Nat) :
    ∀ m fuel k,
      (∀ j, j < m → pollStatus s ch env (k + j) ≠ .DMA_STATUS_COMPLETE ∧
                    pollStatus s ch env (k + j) ≠ .DMA_STATUS_ERROR) →
      m < fuel →
      (pollStatus s ch env (k + m) = .DMA_STATUS_COMPLETE →
        DMA_WaitComplete s ch env t k fuel = some 1) ∧
      (pollStatus s ch env (k + m) = .DMA_STATUS_ERROR →
        DMA_WaitComplete s ch env t k fuel = some 0) := by
  intro m
  induction m with
  | zero =>
    intro fuel k _ hf
    obtain ⟨f2, rfl⟩ : ∃ f2, fuel = f2 + 1 := ⟨fuel - 1, by omega⟩
    constructor
    · intro hc
      simp only [pollStatus, Nat.add_zero] at hc
      simp only [DMA_WaitComplete]
      simp [hc]
    · intro he
      simp only [pollStatus, Nat.add_zero] at he
      simp only [DMA_WaitComplete]
      simp [he]
  | succ m ih =>
    intro fuel k hpre hf
    obtain ⟨f2, rfl⟩ : ∃ f2, fuel = f2 + 1 := ⟨fuel - 1, by omega⟩
    have h0 := hpre 0 (by omega)
    simp only [pollStatus, Nat.add_zero] at h0
    have hrec := ih f2 (k + 1)
      (fun j hj => by
        rw [show k + 1 + j = k + (j + 1) from by omega]
        exact hpre (j + 1) (by omega))
      (by omega)
    rw [show k + 1 + m = k + (m + 1) from by omega] at hrec
    constructor
    · intro hx
      simp only [DMA_WaitComplete]
      simp [h0.1, h0.2]
      exact hrec.1 hx
    · intro hx
      simp only [DMA_WaitComplete]
      simp [h0.1, h0.2]
      exact hrec.2 hx

/-- C9: `DMA_WaitComplete` ignores its timeout parameter: the result does not
depend on `timeout_ms`; if the polled status never becomes `COMPLETE` or
`ERROR` the loop never returns (any amount of fuel yields `none`); the first
poll showing `COMPLETE` makes it return 1 and the first showing `ERROR` makes
it return 0; and a returned 1 (resp. 0) can only come from a `COMPLETE`
(resp. `ERROR`) poll, never from elapsed time. -/
theorem C9_wait_ignores_timeout (s : DMAState) (ch : Nat) (env : FlagEnv)
    (t t' k fuel : Nat) (h1 : 1 ≤ ch) (h7 : ch ≤ 7) :
    DMA_WaitComplete s ch env t k fuel = DMA_WaitComplete s ch env t' k fuel ∧
    ((∀ j, pollStatus s ch env j ≠ .DMA_STATUS_COMPLETE ∧
           pollStatus s ch env j ≠ .DMA_STATUS_ERROR) →
      DMA_WaitComplete s ch env t k fuel = none) ∧
    (∀ m, (∀ j, j < m → pollStatus s ch env (k + j) ≠ .DMA_STATUS_COMPLETE ∧
                        pollStatus s ch env (k + j) ≠ .DMA_STATUS_ERROR) →
      m < fuel →
      (pollStatus s ch env (k + m) = .DMA_STATUS_COMPLETE →
        DMA_WaitComplete s ch env t k fuel = some 1) ∧
      (pollStatus s ch env (k + m) = .DMA_STATUS_ERROR →
        DMA_WaitComplete s ch env t k fuel = some 0)) ∧
    (DMA_WaitComplete s ch env t k fuel = some 1 →
      ∃ j, pollStatus s ch env j = .DMA_STATUS_COMPLETE) ∧
    (DMA_WaitComplete s ch env t k fuel = some 0 →
      ∃ j, pollStatus s ch env j = .DMA_STATUS_ERROR) := by
  refine ⟨waitComplete_timeout_irrel s ch env t t' fuel k,
          fun h => waitComplete_none s ch env t h fuel k,
          fun m hpre hf => waitComplete_first s ch env t m fuel k hpre hf,
          ?_, ?_⟩
  · intro h
    rcases waitComplete_some s ch env t fuel k 1 h with ⟨_, hj⟩ | ⟨h0, _⟩
    · exact hj
    · omega
  · intro h
    rcases waitComplete_some s ch env t fuel k 0 h with ⟨h1, _⟩ | ⟨_, hj⟩
    · omega
    · exact hj

/-- Environment used by witnesses: the hardware never raises a flag. -/
def envW : FlagEnv := fun _ => (false, false)

/-- Witness for C9: with no flag ever raised the loop ignores the timeout and
keeps running. -/
theorem C9_witness :
    DMA_WaitComplete sW1 1 envW 5 0 3 = DMA_WaitComplete sW1 1 envW 7 0 3 ∧
    DMA_WaitComplete sW1 1 envW 5 0 3 = none := by
  have h := C9_wait_ignores_timeout sW1 1 envW 5 7 0 3 (by decide) (by decide)
  refine ⟨h.1, h.2.1 ?_⟩
  intro j
  constructor <;> simp [pollStatus, DMA_GetStatus, waitState, sW1, upd, envW]

/- ========== C10: Flash_ReadString ========== -/

theorem readStringLoop_spec (f : Flash) (addr : Nat) :
    ∀ rem i m, m = i + rem + 1 →
      i ≤ (readStringLoop f addr m i rem).1 ∧
      (readStringLoop f addr m i rem).1 ≤ i + rem ∧
      (readStringLoop f addr m i rem).2 =
        (List.range ((readStringLoop f addr m i rem).1 - i)).map
          (fun k => (i + k, Flash_ReadByte f (addr + (i + k)))) ++
          [((readStringLoop f addr m i rem).1, 0)] ∧
      (∀ k, i ≤ k → k < (readStringLoop f addr m i rem).1 →
        Flash_ReadByte f (addr + k) ≠ 0) := by
  intro rem
  induction rem with
  | zero =>
    intro i m hm
    have hm1 : m - 1 = i := by omega
    refine ⟨Nat.le_refl i, Nat.le_refl i, ?_, ?_⟩
    · simp [readStringLoop, hm1]
    · intro k hk1 hk2
      simp [readStringLoop] at hk2
      omega
  | succ rem ih =>
    intro i m hm
    by_cases hc : Flash_ReadByte f (addr + i) = 0
    · refine ⟨?_, ?_, ?_, ?_⟩ <;> simp [readStringLoop, hc]
      intro k hk1 hk2
      omega
    · have hres : readStringLoop f addr m i (rem + 1) =
          ((readStringLoop f addr m (i + 1) rem).1,
           (i, Flash_ReadByte f (addr + i)) :: (readStringLoop f addr m (i + 1) rem).2) := by
        simp [readStringLoop, hc]
      obtain ⟨ih1, ih2, ih3, ih4⟩ := ih (i + 1) m (by omega)
      rw [hres]
      refine ⟨by omega, by omega, ?_, ?_⟩
      · have hsub : (readStringLoop f addr m (i + 1) rem).1 - i =
            ((readStringLoop f addr m (i + 1) rem).1 - (i + 1)) + 1 := by omega
        rw [ih3, hsub, List.range_succ_eq_map]
        simp only [List.map_cons, List.map_map]
        have hfun : ((fun k => (i + k, Flash_ReadByte f (addr + (i + k)))) ∘ Nat.succ) =
            (fun k => (i + 1 + k, Flash_ReadByte f (addr + (i + 1 + k)))) := by
          funext k
          have : i + Nat.succ k = i + 1 + k := by omega
          simp [Function.comp, this]
        rw [hfun]
        simp
      · intro k hk1 hk2
        rcases Nat.eq_or_lt_of_le hk1 with heq | hlt
        · rw [← heq]
          exact hc
        · exact ih4 k hlt hk2

/-- C10: for a valid address, a non-NULL buffer and `max_len > 0`,
`Flash_ReadString` returns a length of at most `max_len - 1`, the buffer
writes are exactly that many non-zero bytes followed by a null terminator at
the returned index (hence within the first `max_len` bytes); on an invalid
address, a NULL buffer, or `max_len = 0` it returns 0 and performs no buffer
write. -/
theorem C10_read_string (f : Flash) (addr max_len : Nat)
    (hv : Flash_IsAddressValid addr = true) (hm : 0 < max_len) :
    (Flash_ReadString f addr false max_len).1 ≤ max_len - 1 ∧
    (Flash_ReadString f addr false max_len).2 =
      (List.range (Flash_ReadString f addr false max_len).1).map
        (fun k => (k, Flash_ReadByte f (addr + k))) ++
        [((Flash_ReadString f addr false max_len).1, 0)] ∧
    (∀ k, k < (Flash_ReadString f addr false max_len).1 →
      Flash_ReadByte f (addr + k) ≠ 0) ∧
    (∀ (g : Flash) (a ml : Nat), Flash_ReadString g a true ml = (0, [])) ∧
    (∀ (g : Flash) (a : Nat) (b : Bool), Flash_ReadString g a b 0 = (0, [])) ∧
    (∀ (g : Flash) (a ml : Nat) (b : Bool), Flash_IsAddressValid a = false →
      Flash_ReadString g a b ml = (0, [])) := by
  have hunf : Flash_ReadString f addr false max_len =
      readStringLoop f addr max_len 0 (max_len - 1) := by
    have hne : max_len ≠ 0 := by omega
    simp [Flash_ReadString, hv, hne]
  obtain ⟨h1, h2, h3, h4⟩ :=
    readStringLoop_spec f addr (max_len - 1) 0 max_len (by omega)
  refine ⟨?_, ?_, ?_, ?_, ?_, ?_⟩
  · rw [hunf]; omega
  · rw [hunf]
    simpa using h3
  · intro k hk
    exact h4 k (Nat.zero_le k) (by rw [hunf] at hk; exact hk)
  · intro g a ml
    simp [Flash_ReadString]
  · intro g a b
    simp [Flash_ReadString]
  · intro g a ml b hval
    simp [Flash_ReadString, hval]

/-- Concrete flash used by the C10 witness: every byte reads as 66. -/
def fW66 : Flash := fun _ => 66

/-- Witness for C10: a buffer of 4 bytes filled from all-66 flash. -/
theorem C10_witness :
    Flash_IsAddressValid FLASH_DATA_ADDR = true ∧ 0 < 4 ∧
    (Flash_ReadString fW66 FLASH_DATA_ADDR false 4).1 ≤ 4 - 1 ∧
    Flash_ReadString fW66 FLASH_DATA_ADDR false 4 =
      (3, [(0, 66), (1, 66), (2, 66), (3, 0)]) := by
  have h := C10_read_string fW66 FLASH_DATA_ADDR 4 (by decide) (by decide)
  exact ⟨by decide, by decide, h.1, by decide⟩

/- ========== C7: DMA_MemCopy ========== -/

/-- C7: `DMA_MemCopy` configures DMA channel 1 for a normal-mode
memory-to-memory byte transfer with both increments from `src` to `dst` of
`size` bytes; it returns only once a poll reports `COMPLETE` or `ERROR`; and
on successful completion the `size` bytes at `dst` equal the bytes originally
at `src` (other memory is untouched).  The DMA engine itself is vendor
hardware, modelled by `DMA_HW_Transfer`. -/
theorem C7_mem_copy (s : DMAState) (mem : Nat → Nat) (dst src size : Nat)
    (env : FlagEnv) (fuel : Nat) (hsize : 0 < size)
    (hsep : dst + size ≤ src ∨ src + size ≤ dst)
    (hmem : ∀ a, mem a < 256)
    (hsucc : (DMA_MemCopy s mem dst src size env fuel).2.2 = some 1) :
    (DMA_MemCopy s mem dst src size env fuel).1.initReg 0 =
      some (buildInitTypeDef (DMA_MemCopy_config dst src size)) ∧
    (buildInitTypeDef (DMA_MemCopy_config dst src size)).M2M = true ∧
    (buildInitTypeDef (DMA_MemCopy_config dst src size)).DIR = .PeripheralSRC ∧
    (buildInitTypeDef (DMA_MemCopy_config dst src size)).MemoryDataSize = 0 ∧
    (buildInitTypeDef (DMA_MemCopy_config dst src size)).PeripheralDataSize = 0 ∧
    (buildInitTypeDef (DMA_MemCopy_config dst src size)).MemoryInc = true ∧
    (buildInitTypeDef (DMA_MemCopy_config dst src size)).PeripheralInc = true ∧
    (buildInitTypeDef (DMA_MemCopy_config dst src size)).Circular = false ∧
    (buildInitTypeDef (DMA_MemCopy_config dst src size)).BufferSize = size ∧
    (buildInitTypeDef (DMA_MemCopy_config dst src size)).PeripheralBaseAddr = src ∧
    (buildInitTypeDef (DMA_MemCopy_config dst src size)).MemoryBaseAddr = dst ∧
    (∀ i, i < size →
      (DMA_MemCopy s mem dst src size env fuel).2.1 (dst + i) = mem (src + i)) ∧
    (∀ a, a < dst ∨ dst + size ≤ a →
      (DMA_MemCopy s mem dst src size env fuel).2.1 a = mem a) ∧
    (∀ v, (DMA_MemCopy s mem dst src size env fuel).2.2 = some v →
      ∃ j, pollStatus (DMA_Start (DMA_SimpleInit s (DMA_MemCopy_config dst src size)) 1)
             1 env j = .DMA_STATUS_COMPLETE ∨
           pollStatus (DMA_Start (DMA_SimpleInit s (DMA_MemCopy_config dst src size)) 1)
             1 env j = .DMA_STATUS_ERROR) := by
  refine ⟨?_, rfl, rfl, rfl, rfl, rfl, rfl, rfl, rfl, rfl, rfl, ?_, ?_, ?_⟩
  · simp [DMA_MemCopy, DMA_Start, DMA_SimpleInit, DMA_Reset, upd, DMA_MemCopy_config]
  · intro i hi
    show DMA_HW_Transfer (buildInitTypeDef (DMA_MemCopy_config dst src size)) mem (dst + i)
      = mem (src + i)
    simp only [DMA_HW_Transfer, buildInitTypeDef, DMA_MemCopy_config]
    rw [if_pos (by constructor <;> simp)]
    rw [if_pos (by constructor <;> omega)]
    have h1 : dst + i - dst = i := by omega
    rw [h1, Nat.mod_eq_of_lt (hmem (src + i))]
  · intro a ha
    show DMA_HW_Transfer (buildInitTypeDef (DMA_MemCopy_config dst src size)) mem a = mem a
    simp only [DMA_HW_Transfer, buildInitTypeDef, DMA_MemCopy_config]
    rw [if_pos (by constructor <;> simp)]
    rw [if_neg (by omega)]
  · intro v hv
    have hsome := waitComplete_some
      (DMA_Start (DMA_SimpleInit s (DMA_MemCopy_config dst src size)) 1) 1 env 0 fuel 0 v hv
    rcases hsome with ⟨_, j, hj⟩ | ⟨_, j, hj⟩
    · exact ⟨j, Or.inl hj⟩
    · exact ⟨j, Or.inr hj⟩

/-- Memory used by the C7 witness: byte `a % 256` at address `a`. -/
def memW : Nat → Nat := fun a => a % 256

/-- Environment used by the C7 witness: the transfer-complete flag is up at
every poll. -/
def envT : FlagEnv := fun _ => (true, false)

/-- Witness for C7: copying 3 bytes from address 100 to address 0. -/
theorem C7_witness :
    (0 : Nat) < 3 ∧ (0 + 3 ≤ 100 ∨ 100 + 3 ≤ (0 : Nat)) ∧
    (DMA_MemCopy sW1 memW 0 100 3 envT 2).2.2 = some 1 ∧
    (DMA_MemCopy sW1 memW 0 100 3 envT 2).2.1 (0 + 2) = memW (100 + 2) := by
  have h := C7_mem_copy sW1 memW 0 100 3 envT 2 (by decide)
    (Or.inl (by decide)) (fun a => Nat.mod_lt a (by decide)) (by decide)
  exact ⟨by decide, Or.inl (by decide), by decide, h.2.2.2.2.2.2.2.2.2.2.2.1 2 (by decide)⟩

/- ========== CRC16 bounds ========== -/

theorem crc16Shift_lt (c : Nat) : crc16Shift c < 65536 := by
  unfold crc16Shift
  split <;> omega

theorem crc16Shifts_lt (n y : Nat) (hy : y < 65536) : crc16Shifts n y < 65536 := by
  induction n generalizing y with
  | zero => exact hy
  | succ m ih => exact ih (crc16Shift y) (crc16Shift_lt y)

theorem crc16Byte_lt (c b : Nat) : crc16Byte c b < 65536 := by
  show crc16Shifts 7 (crc16Shift (c ^^^ b % 256 * 256)) < 65536
  exact crc16Shifts_lt 7 _ (crc16Shift_lt _)

theorem crc16_foldl_lt (l : List Nat) (c : Nat) (hc : c < 65536) :
    l.foldl crc16Byte c < 65536 := by
  induction l generalizing c with
  | nil => exact hc
  | cons b t ih => exact ih (crc16Byte c b) (crc16Byte_lt c b)

theorem Flash_CalculateCRC16_lt (l : List Nat) : Flash_CalculateCRC16 l < 65536 :=
  crc16_foldl_lt l 65535 (by omega)

/- ========== Half-word write on the config page ========== -/

theorem WH_ok (f : Flash) (addr data : Nat) (hv : Flash_IsAddressValid addr = true)
    (he : addr % 2 = 0) (hd : data < 65536) :
    Flash_WriteHalfWord f addr data =
      (.FLASH_OK, flashStore (flashStore f addr (data % 256)) (addr + 1) (data / 256 % 256)) := by
  have hm : data % 65536 = data := Nat.mod_eq_of_lt hd
  have hne : addr ≠ addr + 1 := by omega
  have hread : Flash_ReadHalfWord (flashStore (flashStore f addr (data % 256))
      (addr + 1) (data / 256 % 256)) addr = data := by
    simp [Flash_ReadHalfWord, flashStore, hv, he, hne]
    omega
  simp [Flash_WriteHalfWord, Flash_WriteHalfWordGen, FLASH_ProgramHalfWord_effect,
    hv, he, hm, hread, Flash_ConvertStatus]

/- ========== Byte writes on the config page ========== -/

theorem writeByte_even (f : Flash) (i d : Nat) (hi : i < 127) (hpar : i % 2 = 0)
    (hnb : f (FLASH_CONFIG_ADDR + i + 1) % 256 = 255) :
    Flash_WriteByte f (FLASH_CONFIG_ADDR + i) d =
      (.FLASH_OK, flashStore (flashStore f (FLASH_CONFIG_ADDR + i) (d % 256))
        (FLASH_CONFIG_ADDR + i + 1) 255) := by
  have hv : Flash_IsAddressValid (FLASH_CONFIG_ADDR + i) = true :=
    valid_config_offset i (by omega)
  have hv1 : Flash_IsAddressValid (FLASH_CONFIG_ADDR + i + 1) = true := by
    rw [Nat.add_assoc]
    exact valid_config_offset (i + 1) (by omega)
  have hpar2 : (FLASH_CONFIG_ADDR + i) % 2 = 0 := by
    rw [config_addr_eq]
    omega
  have halign : FLASH_CONFIG_ADDR + i - (FLASH_CONFIG_ADDR + i) % 2 =
      FLASH_CONFIG_ADDR + i := by
    omega
  have hrb : Flash_ReadByte f (FLASH_CONFIG_ADDR + i + 1) = 255 := by
    simp [Flash_ReadByte, hv1, hnb]
  have hmod1 : (256 * 255 + d % 256) % 256 = d % 256 := by omega
  have hmod2 : (256 * 255 + d % 256) / 256 % 256 = 255 := by omega
  have hw_ok := WH_ok f (FLASH_CONFIG_ADDR + i) (256 * 255 + d % 256) hv hpar2 (by omega)
  unfold Flash_WriteByte
  rw [if_neg (by simp [hv])]
  simp only [hpar2, halign]
  norm_num
  rw [hrb, hw_ok, hmod1, hmod2]

theorem writeByte_odd (f : Flash) (i d : Nat) (hi : i < 127) (hpar : i % 2 = 1) :
    Flash_WriteByte f (FLASH_CONFIG_ADDR + i) d =
      (.FLASH_OK, flashStore (flashStore f (FLASH_CONFIG_ADDR + (i - 1))
          (f (FLASH_CONFIG_ADDR + (i - 1)) % 256))
        (FLASH_CONFIG_ADDR + i) (d % 256)) := by
  have hv : Flash_IsAddressValid (FLASH_CONFIG_ADDR + i) = true :=
    valid_config_offset i (by omega)
  have hvm : Flash_IsAddressValid (FLASH_CONFIG_ADDR + (i - 1)) = true :=
    valid_config_offset (i - 1) (by omega)
  have hpar2 : (FLASH_CONFIG_ADDR + i) % 2 = 1 := by
    rw [config_addr_eq]
    omega
  have halign : FLASH_CONFIG_ADDR + i - (FLASH_CONFIG_ADDR + i) % 2 =
      FLASH_CONFIG_ADDR + (i - 1) := by
    rw [hpar2]
    omega
  have hparm : (FLASH_CONFIG_ADDR + (i - 1)) % 2 = 0 := by
    rw [config_addr_eq]
    omega
  have hsucc : FLASH_CONFIG_ADDR + (i - 1) + 1 = FLASH_CONFIG_ADDR + i := by
    omega
  have hrb : Flash_ReadByte f (FLASH_CONFIG_ADDR + (i - 1)) =
      f (FLASH_CONFIG_ADDR + (i - 1)) % 256 := by
    simp [Flash_ReadByte, hvm]
  have hmod1 : (f (FLASH_CONFIG_ADDR + (i - 1)) % 256 + 256 * (d % 256)) % 256 =
      f (FLASH_CONFIG_ADDR + (i - 1)) % 256 := by omega
  have hmod2 : (f (FLASH_CONFIG_ADDR + (i - 1)) % 256 + 256 * (d % 256)) / 256 % 256 =
      d % 256 := by omega
  have hw_ok := WH_ok f (FLASH_CONFIG_ADDR + (i - 1))
    (f (FLASH_CONFIG_ADDR + (i - 1)) % 256 + 256 * (d % 256)) hvm hparm (by omega)
  have hA : FLASH_CONFIG_ADDR + i - 1 = FLASH_CONFIG_ADDR + (i - 1) := by omega
  unfold Flash_WriteByte
  rw [if_neg (by simp [hv])]
  simp only [hpar2]
  norm_num
  rw [hA, hrb, hw_ok, hmod1, hmod2, hsucc]

/- ========== The config-page write-loop invariant ========== -/

/-- Invariant of the `Flash_WriteStruct` loop on the config page: the first
`i` bytes hold the data, the rest of the page is erased (`0xFF`), and
everything outside the page agrees with the pristine flash `g`. -/
def configInv (f g : Flash) (p : Nat → Nat) (i : Nat) : Prop :=
  (∀ j, j < i → f (FLASH_CONFIG_ADDR + j) = p j % 256) ∧
  (∀ j, i ≤ j → j < 64 → f (FLASH_CONFIG_ADDR + j) = 255) ∧
  (∀ a, a < FLASH_CONFIG_ADDR ∨ FLASH_CONFIG_ADDR + 64 ≤ a → f a = g a)

theorem configInv_store_even (f g : Flash) (p : Nat → Nat) (i : Nat)
    (hi : i < 62) (hinv : configInv f g p i) :
    configInv (flashStore (flashStore f (FLASH_CONFIG_ADDR + i) (p i % 256))
      (FLASH_CONFIG_ADDR + i + 1) 255) g p (i + 1) := by
  obtain ⟨inv1, inv2, inv3⟩ := hinv
  refine ⟨?_, ?_, ?_⟩
  · intro j hj
    simp only [flashStore]
    rw [if_neg (by omega)]
    by_cases hj2 : FLASH_CONFIG_ADDR + j = FLASH_CONFIG_ADDR + i
    · have hji : j = i := by omega
      subst hji
      rw [if_pos hj2]
    · rw [if_neg hj2]
      exact inv1 j (by omega)
  · intro j hj1 hj2
    simp only [flashStore]
    by_cases h1 : FLASH_CONFIG_ADDR + j = FLASH_CONFIG_ADDR + i + 1
    · rw [if_pos h1]
    · rw [if_neg h1, if_neg (by omega)]
      exact inv2 j (by omega) hj2
  · intro a ha
    simp only [flashStore]
    rw [if_neg (by omega), if_neg (by omega)]
    exact inv3 a ha

theorem configInv_store_odd (f g : Flash) (p : Nat → Nat) (i : Nat)
    (hi : i < 62) (hpar : i % 2 = 1) (hinv : configInv f g p i) :
    configInv (flashStore (flashStore f (FLASH_CONFIG_ADDR + (i - 1))
        (f (FLASH_CONFIG_ADDR + (i - 1)) % 256))
      (FLASH_CONFIG_ADDR + i) (p i % 256)) g p (i + 1) := by
  obtain ⟨inv1, inv2, inv3⟩ := hinv
  have hprev : f (FLASH_CONFIG_ADDR + (i - 1)) = p (i - 1) % 256 :=
    inv1 (i - 1) (by omega)
  refine ⟨?_, ?_, ?_⟩
  · intro j hj
    simp only [flashStore]
    by_cases h1 : FLASH_CONFIG_ADDR + j = FLASH_CONFIG_ADDR + i
    · have hji : j = i := by omega
      subst hji
      rw [if_pos h1]
    · rw [if_neg h1]
      by_cases h2 : FLASH_CONFIG_ADDR + j = FLASH_CONFIG_ADDR + (i - 1)
      · have hji : j = i - 1 := by omega
        subst hji
        rw [if_pos h2, hprev]
        omega
      · rw [if_neg h2]
        exact inv1 j (by omega)
  · intro j hj1 hj2
    simp only [flashStore]
    rw [if_neg (by omega), if_neg (by omega)]
    exact inv2 j (by omega) hj2
  · intro a ha
    simp only [flashStore]
    rw [if_neg (by omega), if_neg (by omega)]
    exact inv3 a ha

theorem writeLoop_config (g : Flash) (p : Nat → Nat) :
    ∀ k i f, i + k ≤ 62 → configInv f g p i →
      (writeLoop FLASH_CONFIG_ADDR p i k f).1 = .FLASH_OK ∧
      configInv (writeLoop FLASH_CONFIG_ADDR p i k f).2 g p (i + k) := by
  intro k
  induction k with
  | zero =>
    intro i f _ hinv
    exact ⟨rfl, by simpa using hinv⟩
  | succ k ih =>
    intro i f hik hinv
    by_cases hpar : i % 2 = 0
    · have hnb : f (FLASH_CONFIG_ADDR + i + 1) % 256 = 255 := by
        rw [Nat.add_assoc, hinv.2.1 (i + 1) (by omega) (by omega)]
      have hwb := writeByte_even f i (p i) (by omega) hpar hnb
      have hstep : writeLoop FLASH_CONFIG_ADDR p i (k + 1) f =
          writeLoop FLASH_CONFIG_ADDR p (i + 1) k
            (flashStore (flashStore f (FLASH_CONFIG_ADDR + i) (p i % 256))
              (FLASH_CONFIG_ADDR + i + 1) 255) := by
        simp only [writeLoop, hwb]
        simp
      rw [hstep]
      have hres := ih (i + 1) _ (by omega)
        (configInv_store_even f g p i (by omega) hinv)
      rw [show i + 1 + k = i + (k + 1) from by omega] at hres
      exact hres
    · have hpar1 : i % 2 = 1 := by omega
      have hwb := writeByte_odd f i (p i) (by omega) hpar1
      have hstep : writeLoop FLASH_CONFIG_ADDR p i (k + 1) f =
          writeLoop FLASH_CONFIG_ADDR p (i + 1) k
            (flashStore (flashStore f (FLASH_CONFIG_ADDR + (i - 1))
                (f (FLASH_CONFIG_ADDR + (i - 1)) % 256))
              (FLASH_CONFIG_ADDR + i) (p i % 256)) := by
        simp only [writeLoop, hwb]
        simp
      rw [hstep]
      have hres := ih (i + 1) _ (by omega)
        (configInv_store_odd f g p i (by omega) hpar1 hinv)
      rw [show i + 1 + k = i + (k + 1) from by omega] at hres
      exact hres

/- ========== Flash_SaveConfig characterization ========== -/

theorem erase_config (f : Flash) :
    Flash_ErasePage f FLASH_CONFIG_PAGE =
      (.FLASH_OK, FLASH_ErasePage_effect f FLASH_CONFIG_ADDR) := by
  have h1 : Flash_GetPageAddress FLASH_CONFIG_PAGE = FLASH_CONFIG_ADDR := by
    simp [Flash_GetPageAddress, FLASH_CONFIG_ADDR]
  have h2 : FLASH_CONFIG_ADDR ≠ 0 := by
    rw [config_addr_eq]
    omega
  simp [Flash_ErasePage, h1, h2, Flash_ConvertStatus]

theorem configInv_erased (f : Flash) (p : Nat → Nat) :
    configInv (FLASH_ErasePage_effect f FLASH_CONFIG_ADDR) f p 0 := by
  refine ⟨?_, ?_, ?_⟩
  · intro j hj
    omega
  · intro j _ hj
    simp only [FLASH_ErasePage_effect, FLASH_PAGE_SIZE]
    rw [if_pos (by omega)]
  · intro a ha
    simp only [FLASH_ErasePage_effect, FLASH_PAGE_SIZE]
    rw [if_neg (by omega)]

/-- Full behaviour of `Flash_SaveConfig` for a valid size: every write stays
inside the fixed 64-byte config page; for even sizes it succeeds and leaves
the data bytes, the CRC16 (little-endian) right after them, and `0xFF`
elsewhere on the page; for odd sizes the final CRC half-word write fails with
`FLASH_ERROR_ALIGN`. -/
theorem saveConfig_cases (f : Flash) (p : Nat → Nat) (size : Nat)
    (h1 : 0 < size) (h2 : size ≤ 62) :
    (∀ a, a < FLASH_CONFIG_ADDR ∨ FLASH_CONFIG_ADDR + 64 ≤ a →
      (Flash_SaveConfig f (some p) size).2 a = f a) ∧
    (size % 2 = 1 → (Flash_SaveConfig f (some p) size).1 = .FLASH_ERROR_ALIGN) ∧
    (size % 2 = 0 →
      (Flash_SaveConfig f (some p) size).1 = .FLASH_OK ∧
      (∀ j, j < size →
        (Flash_SaveConfig f (some p) size).2 (FLASH_CONFIG_ADDR + j) = p j % 256) ∧
      (Flash_SaveConfig f (some p) size).2 (FLASH_CONFIG_ADDR + size) =
        Flash_CalculateCRC16 (bufBytes p size) % 256 ∧
      (Flash_SaveConfig f (some p) size).2 (FLASH_CONFIG_ADDR + size + 1) =
        Flash_CalculateCRC16 (bufBytes p size) / 256 % 256) := by
  have hvA : Flash_IsAddressValid FLASH_CONFIG_ADDR = true := by
    have := valid_config_offset 0 (by omega)
    simpa using this
  have hne : size ≠ 0 := by omega
  have hle : ¬ size > FLASH_CONFIG_SIZE - 2 := by
    simp [FLASH_CONFIG_SIZE, FLASH_PAGE_SIZE]
    omega
  have hle64 : ¬ size > FLASH_PAGE_SIZE := by
    simp [FLASH_PAGE_SIZE]
    omega
  have hloop := writeLoop_config f p size 0 (FLASH_ErasePage_effect f FLASH_CONFIG_ADDR)
    (by omega) (configInv_erased f p)
  simp only [Nat.zero_add] at hloop
  have hunf : Flash_SaveConfig f (some p) size =
      Flash_WriteHalfWord (writeLoop FLASH_CONFIG_ADDR p 0 size
          (FLASH_ErasePage_effect f FLASH_CONFIG_ADDR)).2
        (FLASH_CONFIG_ADDR + size) (Flash_CalculateCRC16 (bufBytes p size)) := by
    simp only [Flash_SaveConfig, hne, hle, erase_config, Flash_WriteStruct, hvA, hle64]
    simp [hloop.1]
  set f2 := (writeLoop FLASH_CONFIG_ADDR p 0 size
      (FLASH_ErasePage_effect f FLASH_CONFIG_ADDR)).2 with hf2
  obtain ⟨inv1, inv2, inv3⟩ := hloop.2
  have hvS : Flash_IsAddressValid (FLASH_CONFIG_ADDR + size) = true :=
    valid_config_offset size (by omega)
  have hcrc := Flash_CalculateCRC16_lt (bufBytes p size)
  by_cases hparS : size % 2 = 0
  · have hparA : (FLASH_CONFIG_ADDR + size) % 2 = 0 := by
      rw [config_addr_eq]
      omega
    have hwh := WH_ok f2 (FLASH_CONFIG_ADDR + size)
      (Flash_CalculateCRC16 (bufBytes p size)) hvS hparA hcrc
    rw [hunf, hwh]
    refine ⟨?_, by omega, fun _ => ⟨rfl, ?_, ?_, ?_⟩⟩
    · intro a ha
      simp only [flashStore]
      rw [if_neg (by omega), if_neg (by omega)]
      exact inv3 a ha
    · intro j hj
      simp only [flashStore]
      rw [if_neg (by omega), if_neg (by omega)]
      exact inv1 j hj
    · simp only [flashStore]
      rw [if_neg (by omega)]
      simp
    · simp only [flashStore]
      simp
  · have hpar1 : size % 2 = 1 := by omega
    have hparA : (FLASH_CONFIG_ADDR + size) % 2 = 1 := by
      rw [config_addr_eq]
      omega
    have hwh : Flash_WriteHalfWord f2 (FLASH_CONFIG_ADDR + size)
        (Flash_CalculateCRC16 (bufBytes p size)) = (.FLASH_ERROR_ALIGN, f2) := by
      simp [Flash_WriteHalfWord, Flash_WriteHalfWordGen, hvS, hparA]
    rw [hunf, hwh]
    refine ⟨?_, fun _ => rfl, by omega⟩
    intro a ha
    exact inv3 a ha

/- ========== C1: config round trip ========== -/

/-- C1: if `Flash_SaveConfig` over buffer `p` (any size in 1..62) returns
`FLASH_OK` and no other flash write happens afterwards, then
`Flash_LoadConfig` with the same size returns `true` and fills the
destination buffer with exactly the `size` bytes of `p`. -/
theorem C1_round_trip (f : Flash) (p : Nat → Nat) (size : Nat)
    (h1 : 0 < size) (h2 : size ≤ 62) (hp : ∀ i, p i < 256)
    (hsave : (Flash_SaveConfig f (some p) size).1 = .FLASH_OK) :
    Flash_LoadConfig (Flash_SaveConfig f (some p) size).2 false size =
      (true, (List.range size).map p) := by
  obtain ⟨hout, hodd, heven⟩ := saveConfig_cases f p size h1 h2
  by_cases hpar : size % 2 = 0
  · obtain ⟨hst, hdata, hcl, hch⟩ := heven hpar
    set f3 := (Flash_SaveConfig f (some p) size).2 with hf3
    have hvA : Flash_IsAddressValid FLASH_CONFIG_ADDR = true := by
      have := valid_config_offset 0 (by omega)
      simpa using this
    have hne : size ≠ 0 := by omega
    have hle : ¬ size > FLASH_CONFIG_SIZE - 2 := by
      simp [FLASH_CONFIG_SIZE, FLASH_PAGE_SIZE]
      omega
    have hle64 : ¬ size > FLASH_PAGE_SIZE := by
      simp [FLASH_PAGE_SIZE]
      omega
    have hbytes : readBytes f3 FLASH_CONFIG_ADDR size = (List.range size).map p := by
      unfold readBytes
      apply List.map_congr_left
      intro i hi
      have hi2 : i < size := List.mem_range.mp hi
      have hv : Flash_IsAddressValid (FLASH_CONFIG_ADDR + i) = true :=
        valid_config_offset i (by omega)
      simp [Flash_ReadByte, hv, hdata i hi2]
      have := hp i
      omega
    have hstored : Flash_ReadHalfWord f3 (FLASH_CONFIG_ADDR + size) =
        Flash_CalculateCRC16 (bufBytes p size) := by
      have hvS : Flash_IsAddressValid (FLASH_CONFIG_ADDR + size) = true :=
        valid_config_offset size (by omega)
      have hparA : (FLASH_CONFIG_ADDR + size) % 2 = 0 := by
        rw [config_addr_eq]
        omega
      simp [Flash_ReadHalfWord, hvS, hparA, hcl, hch]
      have := Flash_CalculateCRC16_lt (bufBytes p size)
      omega
    have hload : Flash_LoadConfig f3 false size =
        (decide (Flash_ReadHalfWord f3 (FLASH_CONFIG_ADDR + size) =
          Flash_CalculateCRC16 (readBytes f3 FLASH_CONFIG_ADDR size)),
         readBytes f3 FLASH_CONFIG_ADDR size) := by
      simp [Flash_LoadConfig, Flash_ReadStruct, hvA, hne, hle, hle64]
    rw [hload, hbytes, hstored]
    simp [bufBytes]
  · exfalso
    rw [hodd (by omega)] at hsave
    exact absurd hsave (by decide)

/-- Buffer used by the C1 witness: byte `i % 256` at offset `i`. -/
def pCfg : Nat → Nat := fun i => i % 256

/-- Witness for C1: saving and re-loading a 2-byte config. -/
theorem C1_witness :
    (0 : Nat) < 2 ∧ (2 : Nat) ≤ 62 ∧ (∀ i, pCfg i < 256) ∧
    (Flash_SaveConfig fW0 (some pCfg) 2).1 = .FLASH_OK ∧
    Flash_LoadConfig (Flash_SaveConfig fW0 (some pCfg) 2).2 false 2 =
      (true, (List.range 2).map pCfg) := by
  refine ⟨by decide, by decide, fun i => Nat.mod_lt i (by decide), by decide, ?_⟩
  exact C1_round_trip fW0 pCfg 2 (by decide) (by decide)
    (fun i => Nat.mod_lt i (by decide)) (by decide)

/- ========== C2: CRC validation on load ========== -/

/-- Spec-side notion for C2: the 16-bit little-endian value stored in flash
at `addr`, independent of any alignment handling. -/
def storedHalfLE (f : Flash) (addr : Nat) : Nat :=
  f addr % 256 + 256 * (f (addr + 1) % 256)

/-- Spec-side notion for C2: the `n` bytes stored in flash starting at
`addr`. -/
def storedBytes (f : Flash) (addr n : Nat) : List Nat :=
  (List.range n).map (fun i => f (addr + i) % 256)

/-- Flash refuting C2 as stated: the byte at `FLASH_CONFIG_ADDR` is 0 and the
two bytes at `FLASH_CONFIG_ADDR + 1` hold, little-endian, the CRC16 of that
single byte (`0xE1F0`). -/
def fC2 : Flash := fun a =>
  if a = FLASH_CONFIG_ADDR + 1 then 240
  else if a = FLASH_CONFIG_ADDR + 2 then 225
  else 0

/-- Counterexample to C2 as stated, at `size = 1`: the 16-bit value stored at
`FLASH_CONFIG_ADDR + 1` equals the CRC16 of the one stored byte, yet
`Flash_LoadConfig` returns `false` (it reads the stored CRC through
`Flash_ReadHalfWord`, which yields 0 at this odd address). -/
theorem C2_counterexample :
    (0 : Nat) < 1 ∧ (1 : Nat) ≤ 62 ∧
    storedHalfLE fC2 (FLASH_CONFIG_ADDR + 1) =
      Flash_CalculateCRC16 (storedBytes fC2 FLASH_CONFIG_ADDR 1) ∧
    (Flash_LoadConfig fC2 false 1).1 = false := by
  decide

/-- C2 (amended): for non-NULL `ptr` and `0 < size ≤ 62`, `Flash_LoadConfig`
returns `true` iff the value `Flash_ReadHalfWord` reads at
`FLASH_CONFIG_ADDR + size` — which is the stored 16-bit value for even
`size` but 0 for odd `size`, by the alignment check — equals the CRC16-CCITT
of the `size` bytes stored at `FLASH_CONFIG_ADDR`; for even `size` this is
exactly the claim as stated; and a NULL `ptr`, `size = 0` or `size > 62`
yield `false`. -/
theorem C2_crc_validation_amended (f : Flash) (size : Nat)
    (h1 : 0 < size) (h2 : size ≤ 62) :
    ((Flash_LoadConfig f false size).1 = true ↔
      Flash_ReadHalfWord f (FLASH_CONFIG_ADDR + size) =
        Flash_CalculateCRC16 (storedBytes f FLASH_CONFIG_ADDR size)) ∧
    (size % 2 = 0 →
      ((Flash_LoadConfig f false size).1 = true ↔
        storedHalfLE f (FLASH_CONFIG_ADDR + size) =
          Flash_CalculateCRC16 (storedBytes f FLASH_CONFIG_ADDR size))) ∧
    (∀ (g : Flash) (sz : Nat), (Flash_LoadConfig g true sz).1 = false) ∧
    (∀ g : Flash, (Flash_LoadConfig g false 0).1 = false) ∧
    (∀ (g : Flash) (sz : Nat), 62 < sz → (Flash_LoadConfig g false sz).1 = false) := by
  have hvA : Flash_IsAddressValid FLASH_CONFIG_ADDR = true := by
    have := valid_config_offset 0 (by omega)
    simpa using this
  have hne : size ≠ 0 := by omega
  have hle : ¬ size > FLASH_CONFIG_SIZE - 2 := by
    simp [FLASH_CONFIG_SIZE, FLASH_PAGE_SIZE]
    omega
  have hle64 : ¬ size > FLASH_PAGE_SIZE := by
    simp [FLASH_PAGE_SIZE]
    omega
  have hbytes : readBytes f FLASH_CONFIG_ADDR size = storedBytes f FLASH_CONFIG_ADDR size := by
    unfold readBytes storedBytes
    apply List.map_congr_left
    intro i hi
    have hi2 : i < size := List.mem_range.mp hi
    have hv : Flash_IsAddressValid (FLASH_CONFIG_ADDR + i) = true :=
      valid_config_offset i (by omega)
    simp [Flash_ReadByte, hv]
  have hload : Flash_LoadConfig f false size =
      (decide (Flash_ReadHalfWord f (FLASH_CONFIG_ADDR + size) =
        Flash_CalculateCRC16 (readBytes f FLASH_CONFIG_ADDR size)),
       readBytes f FLASH_CONFIG_ADDR size) := by
    simp [Flash_LoadConfig, Flash_ReadStruct, hvA, hne, hle, hle64]
  refine ⟨?_, ?_, ?_, ?_, ?_⟩
  · rw [hload, hbytes]
    simp
  · intro hpar
    have hvS : Flash_IsAddressValid (FLASH_CONFIG_ADDR + size) = true :=
      valid_config_offset size (by omega)
    have hparA : (FLASH_CONFIG_ADDR + size) % 2 = 0 := by
      rw [config_addr_eq]
      omega
    have hrh : Flash_ReadHalfWord f (FLASH_CONFIG_ADDR + size) =
        storedHalfLE f (FLASH_CONFIG_ADDR + size) := by
      simp [Flash_ReadHalfWord, storedHalfLE, hvS, hparA]
    rw [hload, hbytes, hrh]
    simp
  · intro g sz
    simp [Flash_LoadConfig]
  · intro g
    simp [Flash_LoadConfig]
  · intro g sz hsz
    have hgt : sz > FLASH_CONFIG_SIZE - 2 := by
      simp [FLASH_CONFIG_SIZE, FLASH_PAGE_SIZE]
      omega
    simp [Flash_LoadConfig, hgt]

/-- Witness for the amended C2, at `size = 2` over all-zero flash. -/
theorem C2_witness :
    (0 : Nat) < 2 ∧ (2 : Nat) ≤ 62 ∧
    ((Flash_LoadConfig fW0 false 2).1 = true ↔
      Flash_ReadHalfWord fW0 (FLASH_CONFIG_ADDR + 2) =
        Flash_CalculateCRC16 (storedBytes fW0 FLASH_CONFIG_ADDR 2)) := by
  exact ⟨by decide, by decide,
    (C2_crc_validation_amended fW0 2 (by decide) (by decide)).1⟩

/- ========== C3: wear-aware key-value store? ========== -/

/-- Buffer of all-1 bytes. -/
def pW1 : Nat → Nat := fun _ => 1

/-- Buffer of all-2 bytes. -/
def pW2 : Nat → Nat := fun _ => 2

/-- Counterexample to C3 as stated: two successive config updates both
rewrite the very same flash cell (`FLASH_CONFIG_ADDR`) — `SimpleFlash`'s
writes are not distributed across storage locations. -/
theorem C3_counterexample :
    (Flash_SaveConfig fW0 (some pW1) 2).1 = .FLASH_OK ∧
    (Flash_SaveConfig fW0 (some pW1) 2).2 FLASH_CONFIG_ADDR = 1 ∧
    (Flash_SaveConfig (Flash_SaveConfig fW0 (some pW1) 2).2 (some pW2) 2).1 = .FLASH_OK ∧
    (Flash_SaveConfig (Flash_SaveConfig fW0 (some pW1) 2).2 (some pW2) 2).2
      FLASH_CONFIG_ADDR = 2 := by
  decide

/-- C3 (amended): `SimpleFlash` stores and retrieves values at
caller-specified flash addresses and a config record at one fixed page;
every `Flash_SaveConfig` update is confined to the same fixed 64-byte config
page (`[FLASH_CONFIG_ADDR, FLASH_CONFIG_ADDR + 64)`) — nothing outside it
ever changes, so repeated updates always rewrite that same page. -/
theorem C3_amended_fixed_page (f : Flash) (p : Nat → Nat) (size : Nat)
    (h1 : 0 < size) (h2 : size ≤ 62) :
    ∀ a, a < FLASH_CONFIG_ADDR ∨ FLASH_CONFIG_ADDR + 64 ≤ a →
      (Flash_SaveConfig f (some p) size).2 a = f a :=
  fun a ha => (saveConfig_cases f p size h1 h2).1 a ha

/-- Witness for the amended C3: a save of 2 bytes leaves address 0 (outside
the config page) unchanged. -/
theorem C3_witness :
    (0 : Nat) < 2 ∧ (2 : Nat) ≤ 62 ∧
    ((0 : Nat) < FLASH_CONFIG_ADDR ∨ FLASH_CONFIG_ADDR + 64 ≤ 0) ∧
    (Flash_SaveConfig fW0 (some pW1) 2).2 0 = fW0 0 := by
  have h := C3_amended_fixed_page fW0 pW1 2 (by decide) (by decide)
  exact ⟨by decide, by decide, Or.inl (by decide), h 0 (Or.inl (by decide))⟩
